import Mathlib

/-!
Shallow embedding of `src/configureService.ts` and `src/services.ts`
(a declarative HTTP request factory), together with theorems settling
the specification claims about it.

JavaScript runtime values that can appear in call inputs, query/body
mappings and decoded response payloads are modelled by the inductive
type `JsValue`; plain objects are association lists in insertion order
(which is also their iteration order for the string keys used here).
-/

/-- Model of the JavaScript values flowing through the module: strings,
numbers (integral ones suffice for this code base), booleans, `null`,
`undefined`, and plain objects as key/value lists in iteration order. -/
inductive JsValue where
  | vStr : String → JsValue
  | vNum : Int → JsValue
  | vBool : Bool → JsValue
  | vNull : JsValue
  | vUndef : JsValue
  | vObj : List (String × JsValue) → JsValue

/-- A JavaScript plain object: its fields in iteration order. -/
abbrev JsObj := List (String × JsValue)

/-- Property access `o[k]` on a plain object: the stored value, or
`undefined` when the key is absent. -/
def jsGet (o : JsObj) (k : String) : JsValue :=
  match o.lookup k with
  | some v => v
  | none => JsValue.vUndef

/-- Property access on an arbitrary value: objects give their field (or
`undefined`); primitive receivers give `undefined` for the keys used
here. (Access on `null`/`undefined` throws in JavaScript; those
receivers are unreachable on the modelled paths.) -/
def jsIndex (v : JsValue) (k : String) : JsValue :=
  match v with
  | JsValue.vObj o => jsGet o k
  | _ => JsValue.vUndef

/-- JavaScript truthiness of a value. -/
def truthy : JsValue → Bool
  | JsValue.vStr s => !(s == "")
  | JsValue.vNum n => !(n == 0)
  | JsValue.vBool b => b
  | JsValue.vNull => false
  | JsValue.vUndef => false
  | JsValue.vObj _ => true

/-- The `a || b` operator on values: `a` when truthy, else `b`. -/
def jsOr (a b : JsValue) : JsValue :=
  if truthy a then a else b

/-- The `String(v)` coercion. -/
def jsString : JsValue → String
  | JsValue.vStr s => s
  | JsValue.vNum n => toString n
  | JsValue.vBool b => cond b "true" "false"
  | JsValue.vNull => "null"
  | JsValue.vUndef => "undefined"
  | JsValue.vObj _ => "[object Object]"

/-- Truthiness of a `string | null | undefined` value (absent modelled
as `none`): only a non-empty string is truthy. -/
def strTruthy : Option String → Bool
  | some s => !(s == "")
  | none => false

/-- String coercion of a `string | null` value, as applied by
`Headers.append` to a `sessionStorage.getItem` result. -/
def nullString : Option String → String
  | some s => s
  | none => "null"

/-- String coercion of a possibly-`undefined` string, as applied by the
`+` operator when concatenating. -/
def undefString : Option String → String
  | some s => s
  | none => "undefined"

/-- The `a || b` operator for a possibly-absent string with a string
default: falsy (`undefined` or `""`) falls through to the default. -/
def jsOrString (a : Option String) (dflt : String) : String :=
  match a with
  | some s => if s = "" then dflt else s
  | none => dflt

/-- The `a || b` operator when both operands are possibly-absent
strings (used for `options.baseUrl || process.env.AUTH_URL`). -/
def jsOrStringOpt (a dflt : Option String) : Option String :=
  match a with
  | some s => if s = "" then dflt else some s
  | none => dflt

/-- `Object.entries` of a value: the field list of a plain object; the
other receivers reachable here yield no entries. -/
def jsEntries : JsValue → List (String × JsValue)
  | JsValue.vObj o => o
  | _ => []

/-- Uppercase hexadecimal digit for a value below 16 (the form produced
by `encodeURIComponent`). -/
def hexDigitUpper (n : Nat) : Char :=
  if n < 10 then Char.ofNat (48 + n) else Char.ofNat (55 + n)

/-- Percent-escape of one byte, as `%XY` with uppercase hex. -/
def byteHex (b : Nat) : List Char :=
  [Char.ofNat 37, hexDigitUpper (b / 16), hexDigitUpper (b % 16)]

/-- UTF-8 bytes of a Unicode code point. -/
def utf8Bytes (n : Nat) : List Nat :=
  if n < 128 then [n]
  else if n < 2048 then [192 + n / 64, 128 + n % 64]
  else if n < 65536 then [224 + n / 4096, 128 + (n / 64) % 64, 128 + n % 64]
  else [240 + n / 262144, 128 + (n / 4096) % 64, 128 + (n / 64) % 64, 128 + n % 64]

/-- Characters `encodeURIComponent` leaves unescaped: ASCII
alphanumerics and the marks `- _ . ! ~ * ( )` and the apostrophe
(code point 39). -/
def uriUnreserved (c : Char) : Bool :=
  c.isAlphanum || [45, 95, 46, 33, 126, 42, 40, 41, 39].contains c.toNat

/-- Output of `encodeURIComponent` for one character: kept when
unreserved, otherwise the `%XY` escapes of its UTF-8 bytes. -/
def encPiece (c : Char) : List Char :=
  if uriUnreserved c then [c]
  else (utf8Bytes c.toNat).foldr (fun b a => byteHex b ++ a) []

/-- Model of JavaScript `encodeURIComponent`: unreserved characters are
kept, every other character becomes the `%XY` escapes of its UTF-8
bytes. -/
def encodeURIComponent (s : String) : String :=
  String.mk (s.data.foldr (fun c acc => encPiece c ++ acc) [])

/-- Whether `pat` occurs as a contiguous substring of `l` (the behavior
of `final.match` in `handleQueryPiece` for the identifier-shaped keys
this module is used with, where the string-to-regex coercion matches
literally). -/
def listContainsSub (pat : List Char) : List Char → Bool
  | [] => pat.isEmpty
  | c :: rest => pat.isPrefixOf (c :: rest) || listContainsSub pat rest

/-- Substring test on strings. -/
def strContainsSub (s pat : String) : Bool :=
  listContainsSub pat.data s.data

/-- Replace the first occurrence of `pat` (non-empty on every call
site) by `repl`, as `String.prototype.replace` does with a string
pattern; the replacements used here are percent-encoded values, which
contain no `$` pattern characters. -/
def replaceFirstList (pat repl : List Char) : List Char → List Char
  | [] => []
  | c :: rest =>
    if pat.isPrefixOf (c :: rest) then repl ++ (c :: rest).drop pat.length
    else c :: replaceFirstList pat repl rest

/-- First-occurrence string replacement. -/
def replaceFirstStr (target pat repl : String) : String :=
  String.mk (replaceFirstList pat.data repl.data target.data)

/-- Lowercase hexadecimal digit (used by JSON string `\uXXXX` escapes). -/
def hexDigitLower (n : Nat) : Char :=
  if n < 10 then Char.ofNat (48 + n) else Char.ofNat (87 + n)

/-- JSON escape of one character, per `JSON.stringify`. -/
def jsonEscapeChar (c : Char) : List Char :=
  if c = Char.ofNat 34 then [Char.ofNat 92, Char.ofNat 34]
  else if c = Char.ofNat 92 then [Char.ofNat 92, Char.ofNat 92]
  else if c = Char.ofNat 8 then [Char.ofNat 92, Char.ofNat 98]
  else if c = Char.ofNat 9 then [Char.ofNat 92, Char.ofNat 116]
  else if c = Char.ofNat 10 then [Char.ofNat 92, Char.ofNat 110]
  else if c = Char.ofNat 12 then [Char.ofNat 92, Char.ofNat 102]
  else if c = Char.ofNat 13 then [Char.ofNat 92, Char.ofNat 114]
  else if c.toNat < 32 then
    [Char.ofNat 92, Char.ofNat 117, Char.ofNat 48, Char.ofNat 48,
     hexDigitLower (c.toNat / 16), hexDigitLower (c.toNat % 16)]
  else [c]

/-- A JSON string literal for `s`, double-quoted and escaped. -/
def jsonQuote (s : String) : String :=
  String.mk (Char.ofNat 34 :: s.data.foldr (fun c acc => jsonEscapeChar c ++ acc) [Char.ofNat 34])

mutual

/-- Model of `JSON.stringify` on the values of this module. A top-level
`undefined` has no JSON text (JavaScript returns `undefined` there);
that case is unreachable from `createBody`, which only stringifies
non-empty values. -/
def jsonStringify : JsValue → String
  | JsValue.vStr s => jsonQuote s
  | JsValue.vNum n => toString n
  | JsValue.vBool b => cond b "true" "false"
  | JsValue.vNull => "null"
  | JsValue.vUndef => "undefined"
  | JsValue.vObj o => "\x7b" ++ String.intercalate "," (jsonFields o) ++ "\x7d"

/-- The serialized `key:value` members of an object; fields holding
`undefined` are skipped, as `JSON.stringify` does. -/
def jsonFields : List (String × JsValue) → List String
  | [] => []
  | (k, v) :: rest =>
    match v with
    | JsValue.vUndef => jsonFields rest
    | _ => (jsonQuote k ++ ":" ++ jsonStringify v) :: jsonFields rest

end

/-- Model of the `is-empty` npm dependency on the values occurring
here: `null`/`undefined` are empty, booleans are never empty, a number
is empty when `0`, a string when `""`, and a plain object when it has
no own enumerable keys. -/
def isEmptyJs : JsValue → Bool
  | JsValue.vNull => true
  | JsValue.vUndef => true
  | JsValue.vBool _ => false
  | JsValue.vNum n => n == 0
  | JsValue.vStr s => s == ""
  | JsValue.vObj o => o.isEmpty

/-- Word characters of the regular-expression class `\w`. -/
def isWordChar (c : Char) : Bool :=
  c.isAlphanum || c = Char.ofNat 95

/-- One left-to-right pass of the global regex replacement
`value.replace` of each token `«open brace» word+ «close brace»` in
`handlePreferHeader`. The second argument is `none` in the normal
state, and `some buf` after an opening brace with `buf` the word
characters read so far. A match requires at least one word character
directly followed by the closing brace; a failed candidate is emitted
literally and scanning resumes at the character that broke it, which is
where the regex engine would try the next match start. Replacement text
is never rescanned. -/
def preferAux (query : JsValue) : List Char → Option (List Char) → List Char
  | [], none => []
  | [], some buf => Char.ofNat 123 :: buf
  | c :: rest, none =>
    if c = Char.ofNat 123 then preferAux query rest (some [])
    else c :: preferAux query rest none
  | c :: rest, some buf =>
    if c = Char.ofNat 125 then
      if buf.isEmpty then Char.ofNat 123 :: Char.ofNat 125 :: preferAux query rest none
      else (jsString (jsIndex query (String.mk buf))).data ++ preferAux query rest none
    else if isWordChar c then preferAux query rest (some (buf ++ [c]))
    else
      Char.ofNat 123 :: buf ++
        (if c = Char.ofNat 123 then preferAux query rest (some [])
         else c :: preferAux query rest none)

/-- Model of `handlePreferHeader` (`src/configureService.ts`): replace
every `«open brace»key«close brace»` token by `String(query[key])`; a
key absent from the query yields the text `undefined`. -/
def handlePreferHeader (value : String) (query : JsValue) : String :=
  String.mk (preferAux query value.data none)

/-- The accept/content negotiation keys (`DataTypeKeyT`). -/
inductive DataTypeKey where
  | json
  | text
  | blob
  | formData
deriving DecidableEq

/-- The `STRING_OPTIONS_MAP` MIME table. -/
def stringOptionsMap : DataTypeKey → String
  | DataTypeKey.json => "application/json"
  | DataTypeKey.text => "text/plain"
  | DataTypeKey.blob => "application/octet-stream"
  | DataTypeKey.formData => "multipart/form-data"

/-- Indexing `STRING_OPTIONS_MAP` with a possibly-absent key, coerced
to text where a header value is built from it (an absent key reads
`undefined`, which `Headers.append` would stringify). This case is
unreachable for calls built by `createServiceCall`, whose prepared
options always carry a key. -/
def stringOptionsMapOpt : Option DataTypeKey → String
  | some k => stringOptionsMap k
  | none => "undefined"

/-- The endpoint descriptor (`OptionsT`). String-valued fields that the
code guards with `||` are modelled as possibly absent (`none` is the
JavaScript `undefined`); `prefer` is optional in the source as well. -/
structure OptionsT where
  name : String := ""
  baseUrl : Option String := none
  path : Option String := none
  usesAccessToken : Bool := false
  usesIdToken : Bool := false
  acceptType : Option DataTypeKey := none
  contentType : Option DataTypeKey := none
  method : Option String := none
  prefer : Option String := none

/-- The session token store, read through
`sessionStorage.getItem(«accessToken» | «idToken»)`; `none` is the
`null` result for an absent key. -/
structure SessionStorage where
  accessToken : Option String := none
  idToken : Option String := none

/-- Model of `createHeaders` (`src/configureService.ts`, lines 60-81):
content negotiation, then bearer/id tokens when the access token is
truthy, then the rendered `Prefer` template when `options.prefer` is
truthy. Headers are the appended name/value pairs in order. -/
def createHeaders (session : SessionStorage) (options : OptionsT) (input : JsObj) :
    List (String × String) :=
  let accessToken := session.accessToken
  let idToken := session.idToken
  let contentType := stringOptionsMapOpt options.contentType
  let acceptType := stringOptionsMapOpt options.acceptType
  let headers :=
    [("Content-Type", if options.method = some "get" then "x-www-form-urlencoded" else contentType),
     ("Accept", acceptType)]
  let headers :=
    if strTruthy accessToken then
      headers ++ [("Authorization", "Bearer " ++ undefString accessToken),
                  ("x-id-token", nullString idToken)]
    else headers
  if strTruthy options.prefer then
    headers ++ [("Prefer", handlePreferHeader ((options.prefer).getD "") (jsGet input "query"))]
  else headers

/-- Model of `createBody` (lines 83-85): `undefined` for an empty body,
otherwise the JSON text of `input.body`. -/
def createBody (input : JsObj) : Option String :=
  if isEmptyJs (jsGet input "body") then none else some (jsonStringify (jsGet input "body"))

/-- The argument record of `createRequest`. -/
structure CreateRequestOptionsT where
  headers : List (String × String)
  method : Option String
  url : String
  body : Option String := none

/-- The observable request handed to `fetch`. The `Request`
constructor's own platform normalizations (method up-casing, rejection
of GET/HEAD bodies) are outside this module and not modelled. -/
structure RequestT where
  method : Option String
  headers : List (String × String)
  url : String
  body : Option String

/-- Model of `createRequest` (lines 87-97): the configuration is copied
and a falsy body (absent, or the empty string) is not attached. -/
def createRequest (configuration : CreateRequestOptionsT) : RequestT :=
  { method := configuration.method
    headers := configuration.headers
    url := configuration.url
    body :=
      match configuration.body with
      | some s => if s = "" then none else some s
      | none => none }

/-- Model of `prepareOptions` (lines 101-114). The first argument
models the ambient `process.env.AUTH_URL`. Note that the returned
record has no `prefer` field in the source; here that reads
`prefer := none`. -/
def prepareOptions (authUrl : Option String) (options : OptionsT) : OptionsT :=
  { name := options.name
    path := some (jsOrString options.path "")
    baseUrl := jsOrStringOpt options.baseUrl authUrl
    usesAccessToken := options.usesAccessToken || true
    usesIdToken := options.usesIdToken || true
    acceptType := some ((options.acceptType).getD DataTypeKey.json)
    contentType := some ((options.contentType).getD DataTypeKey.json)
    method := some (jsOrString options.method "POST")
    prefer := none }

/-- The per-call response as the module observes it: a status code and
the settled value of the body decoder selected by the accept type
(`response.json()`, `.text()`, `.blob()` or `.formData()`). -/
structure ResponseT where
  status : Nat
  decoded : DataTypeKey → JsValue

/-- Model of `getResponseProcessor` (lines 116-118) applied to a
response: the decoder selected by `RESPONSE_PROCESSORS[acceptType]`.
An absent accept type indexes the table at `undefined`; that case is
unreachable from `createServiceCall`, which always prepares the
options first. -/
def getResponseProcessor (options : OptionsT) (response : ResponseT) : JsValue :=
  match options.acceptType with
  | some k => response.decoded k
  | none => JsValue.vUndef

/-- Model of `encodeQuery` (lines 120-124): percent-encode every value
(via the `String` coercion), keys left unencoded. -/
def encodeQuery (entries : List (String × JsValue)) : List (String × String) :=
  entries.map (fun kv => (kv.1, encodeURIComponent (jsString kv.2)))

/-- Model of `injectVariable` (lines 132-134): replace the first
occurrence of the placeholder for `key` by `value`. -/
def injectVariable (target key value : String) : String :=
  replaceFirstStr target ("\x7b" ++ key ++ "\x7d") value

/-- Model of `handleQueryPiece` (lines 136-140): if the accumulated URL
contains the placeholder of the key, substitute it, otherwise append
`&key=value`. -/
def handleQueryPiece (final : String) (kv : String × String) : String :=
  let hasPieceMatch := strContainsSub final ("\x7b" ++ kv.1 ++ "\x7d")
  let queryString := final ++ "&" ++ kv.1 ++ "=" ++ kv.2
  if hasPieceMatch then injectVariable final kv.1 kv.2 else queryString

/-- The `CreateUrlOptionsT` argument of `createUrl` (the descriptor
fields it reads). -/
structure CreateUrlOptionsT where
  baseUrl : Option String
  path : Option String

/-- Model of `createUrl` (lines 142-155): seed `baseUrl + path`, then
fold `handleQueryPiece` over the encoded entries of `input.query` in
iteration order. No `?` is ever introduced by the builder itself. -/
def createUrl (options : CreateUrlOptionsT) (input : JsObj) : String :=
  let initialUrl := undefString options.baseUrl ++ undefString options.path
  let queryEntries := jsEntries (jsGet input "query")
  let encodedQueryEntries := encodeQuery queryEntries
  encodedQueryEntries.foldl handleQueryPiece initialUrl

/-- Model of `prepareInput` (lines 157-172): when neither `input.body`
nor `input.query` is truthy, the whole raw input becomes the query for
method `GET` and the body otherwise; else the two keys are taken with
`|| «empty object»` defaults. -/
def prepareInput (options : OptionsT) (input : JsObj) : JsObj :=
  let bodyV := jsGet input "body"
  let queryV := jsGet input "query"
  if !truthy bodyV && !truthy queryV then
    let qb :=
      if options.method = some "GET" then (JsValue.vObj input, JsValue.vObj [])
      else (JsValue.vObj [], JsValue.vObj input)
    [("query", qb.1), ("body", qb.2)]
  else
    [("body", jsOr bodyV (JsValue.vObj [])),
     ("query", jsOr queryV (JsValue.vObj []))]

/-- The `ServiceOutputT` result record. `error` and `data` hold the
decoded payload or the JavaScript `null`. -/
structure ServiceOutputT where
  error : JsValue
  data : JsValue
  response : ResponseT

/-- Model of one invocation of the closure returned by
`createServiceCall` (lines 174-204). `authUrl` models
`process.env.AUTH_URL`, `session` the session token store, and
`response` the settled result of `fetch`; the pair returned exposes
both the request handed to `fetch` and the service output, the two
observables of a call. -/
def createServiceCall (authUrl : Option String) (session : SessionStorage)
    (options : OptionsT) (input : JsObj) (response : ResponseT) :
    RequestT × ServiceOutputT :=
  let preparedOptions := prepareOptions authUrl options
  let preparedInput := prepareInput preparedOptions input
  let headers := createHeaders session preparedOptions preparedInput
  let url := createUrl { baseUrl := preparedOptions.baseUrl, path := preparedOptions.path } preparedInput
  let body := createBody preparedInput
  let request := createRequest
    { method := preparedOptions.method, url := url, headers := headers, body := body }
  let output := getResponseProcessor preparedOptions response
  let error := if response.status > 399 then output else JsValue.vNull
  let data := if response.status < 400 then output else JsValue.vNull
  (request, { error := error, data := data, response := response })

/-- Model of `createService` (lines 211-220): the wrapper only logs and
asserts, so the delivered value is the `createServiceCall` output. -/
def createService (authUrl : Option String) (session : SessionStorage)
    (options : OptionsT) (input : JsObj) (response : ResponseT) : ServiceOutputT :=
  (createServiceCall authUrl session options input response).2

/-- The `getCustomers` descriptor from `src/services.ts`. -/
def getCustomersOptions : OptionsT :=
  { name := "getCustomers"
    baseUrl := some "https://example.com"
    path := some "/api/customers/\x7bcustomerId\x7d"
    method := some "GET"
    usesAccessToken := true
    usesIdToken := true
    acceptType := some DataTypeKey.json
    contentType := some DataTypeKey.json
    prefer := some "example=populated" }

/-- The `getCustomerProfile` descriptor from `src/services.ts`. -/
def getCustomerProfileOptions : OptionsT :=
  { name := "getCustomerProfile"
    baseUrl := some "https://example.com"
    path := some "/api/customers/\x7bcustomerId\x7d/location/\x7blocationId\x7d"
    method := some "GET"
    usesAccessToken := true
    usesIdToken := true
    acceptType := some DataTypeKey.json
    contentType := some DataTypeKey.json
    prefer := some "example=\x7bcustomerId\x7d" }

/-- The `logIn` descriptor from `src/services.ts`. -/
def logInOptions : OptionsT :=
  { name := "logIn"
    baseUrl := some "https://example.com"
    path := some "/api/login"
    method := some "POST"
    usesAccessToken := false
    usesIdToken := false
    acceptType := some DataTypeKey.json
    contentType := some DataTypeKey.json }

/-- A session store with both tokens set. -/
def sessTok : SessionStorage := { accessToken := some "tok", idToken := some "id1" }

/-- A session store whose access token is the empty string: a non-null
stored value that JavaScript truthiness treats as absent. -/
def sessEmptyTok : SessionStorage := { accessToken := some "", idToken := some "id1" }

/-- A resolved response with status 200 whose decoded payload is the
JSON literal `null` (what `response.json()` yields for the body text
`null`). -/
def respNull200 : ResponseT := { status := 200, decoded := fun _ => JsValue.vNull }

/-- A resolved 404 response decoding to the object of the spec
example. -/
def resp404 : ResponseT :=
  { status := 404, decoded := fun _ => JsValue.vObj [("msg", JsValue.vStr "not found")] }

/-- A resolved 200 response decoding to the object of the spec
example. -/
def resp200 : ResponseT :=
  { status := 200, decoded := fun _ => JsValue.vObj [("id", JsValue.vNum 1)] }

/-- The raw call input of the spec example. -/
def custInput : JsObj := [("customerId", JsValue.vNum 5)]

/-- C9: For every baseUrl and path, the URL builder applied to an empty
query mapping returns exactly baseUrl ++ path, unchanged: with no query
entries the fold never runs and the seed is returned as is. -/
theorem c9_empty_query_identity (baseUrl path : String) :
    createUrl { baseUrl := some baseUrl, path := some path } [("query", JsValue.vObj [])]
      = baseUrl ++ path := rfl

/-- C3: The decoded payload is classified by status code: a status of
at least 400 puts the payload in the `error` field with `data` null,
and a status below 400 puts the payload in the `data` field with
`error` null. -/
theorem c3_status_classification (authUrl : Option String) (session : SessionStorage)
    (options : OptionsT) (input : JsObj) (response : ResponseT) :
    (400 ≤ response.status →
      (createServiceCall authUrl session options input response).2.error
          = getResponseProcessor (prepareOptions authUrl options) response ∧
      (createServiceCall authUrl session options input response).2.data = JsValue.vNull) ∧
    (response.status < 400 →
      (createServiceCall authUrl session options input response).2.data
          = getResponseProcessor (prepareOptions authUrl options) response ∧
      (createServiceCall authUrl session options input response).2.error = JsValue.vNull) := by
  constructor
  · intro h
    have h1 : 399 < response.status := h
    have h2 : ¬ response.status < 400 := by omega
    simp [createServiceCall, h1, h2]
  · intro h
    have h2 : ¬ 399 < response.status := by omega
    simp [createServiceCall, h, h2]

/-- C3 witness: status 404 with payload an object carrying
`msg: "not found"` yields that object as `error` and a null `data`;
status 200 with payload carrying `id: 1` yields that object as `data`
and a null `error`. -/
theorem c3_witness :
    ((createServiceCall none {} { name := "svc" } [] resp404).2.error
        = JsValue.vObj [("msg", JsValue.vStr "not found")] ∧
     (createServiceCall none {} { name := "svc" } [] resp404).2.data = JsValue.vNull) ∧
    ((createServiceCall none {} { name := "svc" } [] resp200).2.data
        = JsValue.vObj [("id", JsValue.vNum 1)] ∧
     (createServiceCall none {} { name := "svc" } [] resp200).2.error = JsValue.vNull) :=
  ⟨(c3_status_classification none {} { name := "svc" } [] resp404).1 (by decide),
   (c3_status_classification none {} { name := "svc" } [] resp200).2 (by decide)⟩

/-- C1 (amended): when the decoded payload is itself non-null, exactly
one of the returned `error`/`data` fields is non-null after a resolved
call. (As stated over all payloads the claim fails: a null decoded
payload leaves both fields null, see the counterexample.) -/
theorem c1_exactly_one_nonnull (authUrl : Option String) (session : SessionStorage)
    (options : OptionsT) (input : JsObj) (response : ResponseT)
    (h : getResponseProcessor (prepareOptions authUrl options) response ≠ JsValue.vNull) :
    ((createServiceCall authUrl session options input response).2.error ≠ JsValue.vNull ∧
     (createServiceCall authUrl session options input response).2.data = JsValue.vNull) ∨
    ((createServiceCall authUrl session options input response).2.error = JsValue.vNull ∧
     (createServiceCall authUrl session options input response).2.data ≠ JsValue.vNull) := by
  by_cases hs : 399 < response.status
  · left
    have h2 : ¬ response.status < 400 := by omega
    simp [createServiceCall, hs, h2, h]
  · right
    have h2 : response.status < 400 := by omega
    simp [createServiceCall, hs, h2, h]

/-- C1 counterexample: a resolved status-200 response whose decoded
payload is the JSON value `null` produces `error = null` and
`data = null` simultaneously, so it is not the case that exactly one of
the two fields is non-null. -/
theorem c1_both_null_counterexample :
    ¬ (((createServiceCall none {} { name := "svc" } [] respNull200).2.error ≠ JsValue.vNull ∧
        (createServiceCall none {} { name := "svc" } [] respNull200).2.data = JsValue.vNull) ∨
       ((createServiceCall none {} { name := "svc" } [] respNull200).2.error = JsValue.vNull ∧
        (createServiceCall none {} { name := "svc" } [] respNull200).2.data ≠ JsValue.vNull)) := by
  intro hc
  rcases hc with ⟨h1, _⟩ | ⟨_, h2⟩
  · exact h1 rfl
  · exact h2 rfl

/-- C1 witness: at a concrete 200 response with a non-null object
payload, the amended statement applies and yields exactly one non-null
field. -/
theorem c1_witness :
    (getResponseProcessor (prepareOptions none { name := "svc" }) resp200 ≠ JsValue.vNull) ∧
    (((createServiceCall none {} { name := "svc" } [] resp200).2.error ≠ JsValue.vNull ∧
      (createServiceCall none {} { name := "svc" } [] resp200).2.data = JsValue.vNull) ∨
     ((createServiceCall none {} { name := "svc" } [] resp200).2.error = JsValue.vNull ∧
      (createServiceCall none {} { name := "svc" } [] resp200).2.data ≠ JsValue.vNull)) :=
  have hne : getResponseProcessor (prepareOptions none { name := "svc" }) resp200 ≠ JsValue.vNull :=
    fun hh => JsValue.noConfusion hh
  ⟨hne, c1_exactly_one_nonnull none {} { name := "svc" } [] resp200 hne⟩

/-- C2: on the actual call path the `Prefer` header is never attached,
because `prepareOptions` drops the descriptor's `prefer` field; the
rendering behavior the claim describes does exist in `createHeaders`
(third conjunct, on the unprepared descriptor) and a missing key
renders as the text `undefined` (fourth conjunct), but a call built by
`createServiceCall` on the prefer-declaring `getCustomers` descriptor
sends no `Prefer` header (second conjunct). -/
theorem c2_prefer_dropped :
    (prepareOptions none getCustomersOptions).prefer = none ∧
    List.lookup "Prefer"
        ((createServiceCall none sessTok getCustomersOptions custInput respNull200).1.headers)
      = none ∧
    ("Prefer", "example=populated") ∈ createHeaders sessTok getCustomersOptions [] ∧
    handlePreferHeader "example=\x7bcustomerId\x7d" (JsValue.vObj []) = "example=undefined" :=
  ⟨rfl, by decide, by decide, rfl⟩

/-- C5 counterexample: a store holding the empty string as access token
is non-null, yet the assembled headers carry no `Authorization` entry,
because the code tests JavaScript truthiness rather than nullity. -/
theorem c5_counterexample_empty_token :
    sessEmptyTok.accessToken ≠ none ∧
    List.lookup "Authorization" (createHeaders sessEmptyTok { name := "svc" } []) = none :=
  ⟨by decide, by decide⟩

/-- C5 (amended): whenever the session token store holds a non-null and
non-empty access token, the assembled headers contain both
`Authorization: Bearer token` and `x-id-token` with the string coercion
of the stored id token, regardless of the descriptor's
`usesAccessToken`/`usesIdToken` flags (the statement quantifies over
every descriptor and never mentions them). -/
theorem c5_auth_headers (session : SessionStorage) (options : OptionsT) (input : JsObj)
    (tok : String) (h1 : session.accessToken = some tok) (h2 : tok ≠ "") :
    ("Authorization", "Bearer " ++ tok) ∈ createHeaders session options input ∧
    ("x-id-token", nullString session.idToken) ∈ createHeaders session options input := by
  have hta : strTruthy (some tok) = true := by
    simp [strTruthy, h2]
  constructor <;>
  · by_cases hp : strTruthy options.prefer = true <;>
      simp [createHeaders, h1, hta, undefString, hp, List.mem_append]

/-- C5 witness: with tokens `tok`/`id1` in the store, both headers are
present whatever the flags say (here the defaulted descriptor has both
flags false). -/
theorem c5_witness :
    ("Authorization", "Bearer tok") ∈ createHeaders sessTok { name := "svc" } [] ∧
    ("x-id-token", "id1") ∈ createHeaders sessTok { name := "svc" } [] :=
  c5_auth_headers sessTok { name := "svc" } [] "tok" rfl (by decide)

/-- Helper: none of the four MIME strings is the urlencoded marker. -/
theorem stringOptionsMap_ne_marker (k : DataTypeKey) :
    stringOptionsMap k ≠ "x-www-form-urlencoded" := by
  cases k <;> decide

/-- Helper: the `Content-Type` entry of the assembled headers is the
branch on the lowercase method comparison. -/
theorem createHeaders_content_type (session : SessionStorage) (options : OptionsT)
    (input : JsObj) :
    List.lookup "Content-Type" (createHeaders session options input)
      = some (if options.method = some "get" then "x-www-form-urlencoded"
              else stringOptionsMapOpt options.contentType) := by
  by_cases h1 : strTruthy session.accessToken <;>
    by_cases h2 : strTruthy options.prefer <;>
      simp [createHeaders, h1, h2, List.lookup]

/-- Helper: the `Accept` entry of the assembled headers is the mapped
accept type. -/
theorem createHeaders_accept (session : SessionStorage) (options : OptionsT)
    (input : JsObj) :
    List.lookup "Accept" (createHeaders session options input)
      = some (stringOptionsMapOpt options.acceptType) := by
  by_cases h1 : strTruthy session.accessToken <;>
    by_cases h2 : strTruthy options.prefer <;>
      simp [createHeaders, h1, h2, List.lookup]

/-- C7: the `Content-Type` header equals the fixed urlencoded marker
exactly when the method string equals the lowercase literal `get`; for
any other method string, including the uppercase `GET` the descriptors
declare, it equals the MIME string mapped from `contentType`; the
`Accept` header always equals the MIME string mapped from
`acceptType`. -/
theorem c7_content_type (session : SessionStorage) (options : OptionsT) (input : JsObj)
    (ct a : DataTypeKey) (hct : options.contentType = some ct)
    (hat : options.acceptType = some a) :
    (List.lookup "Content-Type" (createHeaders session options input)
        = some "x-www-form-urlencoded" ↔ options.method = some "get") ∧
    (options.method ≠ some "get" →
      List.lookup "Content-Type" (createHeaders session options input)
        = some (stringOptionsMap ct)) ∧
    (options.method = some "GET" →
      List.lookup "Content-Type" (createHeaders session options input)
        = some (stringOptionsMap ct)) ∧
    List.lookup "Accept" (createHeaders session options input) = some (stringOptionsMap a) := by
  have hCT := createHeaders_content_type session options input
  have hAC := createHeaders_accept session options input
  refine ⟨⟨?_, ?_⟩, ?_, ?_, ?_⟩
  · intro he
    by_cases hm : options.method = some "get"
    · exact hm
    · rw [hCT, if_neg hm, hct] at he
      exact absurd (Option.some.inj he) (stringOptionsMap_ne_marker ct)
  · intro hm
    rw [hCT, if_pos hm]
  · intro hm
    rw [hCT, if_neg hm, hct]
    rfl
  · intro hm
    have hne : options.method ≠ some "get" := by
      rw [hm]; decide
    rw [hCT, if_neg hne, hct]
    rfl
  · rw [hAC, hat]
    rfl

/-- A GET descriptor with explicit json negotiation, as `services.ts`
declares them. -/
def optsGET : OptionsT :=
  { name := "svc", method := some "GET",
    acceptType := some DataTypeKey.json, contentType := some DataTypeKey.json }

/-- C7 witness: an uppercase-GET descriptor never takes the urlencoded
branch; both negotiated headers are the json MIME string. -/
theorem c7_witness :
    List.lookup "Content-Type" (createHeaders {} optsGET []) = some "application/json" ∧
    List.lookup "Accept" (createHeaders {} optsGET []) = some "application/json" :=
  ⟨(c7_content_type {} optsGET [] DataTypeKey.json DataTypeKey.json rfl rfl).2.2.1 rfl,
   (c7_content_type {} optsGET [] DataTypeKey.json DataTypeKey.json rfl rfl).2.2.2⟩

/-- Helper: the JSON text of an object is never the empty string (it is
at least the two braces), so a serialized body always survives the
truthiness test in `createRequest`. -/
theorem jsonStringify_obj_ne_empty (l : List (String × JsValue)) :
    jsonStringify (JsValue.vObj l) ≠ "" := by
  intro hh
  have hlen := congrArg String.length hh
  simp only [jsonStringify, String.length_append] at hlen
  have e1 : ("\x7b" : String).length = 1 := rfl
  have e2 : ("\x7d" : String).length = 1 := rfl
  have e3 : ("" : String).length = 0 := rfl
  rw [e1, e2, e3] at hlen
  omega

/-- C8: on every call whose prepared body is a mapping, an empty
mapping leads to a request with no body attribute, and a non-empty one
to a request whose body is exactly the JSON text of the mapping. -/
theorem c8_body_serialization (authUrl : Option String) (session : SessionStorage)
    (options : OptionsT) (input : JsObj) (response : ResponseT)
    (l : List (String × JsValue))
    (h : jsGet (prepareInput (prepareOptions authUrl options) input) "body" = JsValue.vObj l) :
    (l = [] → (createServiceCall authUrl session options input response).1.body = none) ∧
    (l ≠ [] → (createServiceCall authUrl session options input response).1.body
                = some (jsonStringify (JsValue.vObj l))) := by
  constructor
  · intro hl
    subst hl
    simp [createServiceCall, createRequest, createBody, h, isEmptyJs]
  · intro hl
    have hne : l.isEmpty = false := by
      simp [List.isEmpty_iff, hl]
    have hs : jsonStringify (JsValue.vObj l) ≠ "" := jsonStringify_obj_ne_empty l
    simp [createServiceCall, createRequest, createBody, h, isEmptyJs, hne, hs]

/-- A POST descriptor with only defaults otherwise. -/
def optsPOST : OptionsT := { name := "svc", method := some "POST" }

/-- C8 witness: the empty body mapping sends no body attribute; the
body mapping holding `a: 1` sends exactly the JSON text of that
mapping. -/
theorem c8_witness :
    (createServiceCall none {} optsPOST [] resp200).1.body = none ∧
    (createServiceCall none {} optsPOST
        [("body", JsValue.vObj [("a", JsValue.vNum 1)])] resp200).1.body
      = some "\x7b\"a\":1\x7d" :=
  ⟨(c8_body_serialization none {} optsPOST [] resp200 [] rfl).1 rfl,
   (c8_body_serialization none {} optsPOST [("body", JsValue.vObj [("a", JsValue.vNum 1)])]
      resp200 [("a", JsValue.vNum 1)] rfl).2 (by simp)⟩

/-- C6: on raw inputs whose `query`/`body` fields, when present, are
mappings (the declared CallInput shape, under which key presence and
JavaScript truthiness coincide because objects are always truthy), the
normalizer fills the prepared input as the claim states: present keys
are authoritative with the missing one defaulted to the empty mapping,
and an input with neither key becomes the whole query for method `GET`
and the whole body for every other method. -/
theorem c6_prepare_input (options : OptionsT) (input : JsObj)
    (hb : ∀ v, input.lookup "body" = some v → ∃ l, v = JsValue.vObj l)
    (hq : ∀ v, input.lookup "query" = some v → ∃ l, v = JsValue.vObj l) :
    (input.lookup "body" = none → input.lookup "query" = none →
      ((options.method = some "GET" →
         jsGet (prepareInput options input) "query" = JsValue.vObj input ∧
         jsGet (prepareInput options input) "body" = JsValue.vObj []) ∧
       (options.method ≠ some "GET" →
         jsGet (prepareInput options input) "body" = JsValue.vObj input ∧
         jsGet (prepareInput options input) "query" = JsValue.vObj []))) ∧
    ((input.lookup "body" ≠ none ∨ input.lookup "query" ≠ none) →
      jsGet (prepareInput options input) "body"
        = (match input.lookup "body" with
           | some v => v
           | none => JsValue.vObj []) ∧
      jsGet (prepareInput options input) "query"
        = (match input.lookup "query" with
           | some v => v
           | none => JsValue.vObj [])) := by
  constructor
  · intro h1 h2
    have e1 : jsGet input "body" = JsValue.vUndef := by
      simp [jsGet, h1]
    have e2 : jsGet input "query" = JsValue.vUndef := by
      simp [jsGet, h2]
    constructor
    · intro hm
      have hout : prepareInput options input
          = [("query", JsValue.vObj input), ("body", JsValue.vObj [])] := by
        simp [prepareInput, e1, e2, truthy, hm]
      rw [hout]
      exact ⟨rfl, rfl⟩
    · intro hm
      have hout : prepareInput options input
          = [("query", JsValue.vObj []), ("body", JsValue.vObj input)] := by
        simp [prepareInput, e1, e2, truthy, hm]
      rw [hout]
      exact ⟨rfl, rfl⟩
  · intro hor
    cases hcb : input.lookup "body" with
    | none =>
      cases hcq : input.lookup "query" with
      | none =>
        exfalso
        rcases hor with h | h <;> exact h (by assumption)
      | some vq =>
        obtain ⟨lq, rfl⟩ := hq vq hcq
        have e1 : jsGet input "body" = JsValue.vUndef := by
          simp [jsGet, hcb]
        have e2 : jsGet input "query" = JsValue.vObj lq := by
          simp [jsGet, hcq]
        have hout : prepareInput options input
            = [("body", JsValue.vObj []), ("query", JsValue.vObj lq)] := by
          simp [prepareInput, e1, e2, truthy, jsOr]
        rw [hout]
        exact ⟨rfl, rfl⟩
    | some vb =>
      obtain ⟨lb, rfl⟩ := hb vb hcb
      have e1 : jsGet input "body" = JsValue.vObj lb := by
        simp [jsGet, hcb]
      cases hcq : input.lookup "query" with
      | none =>
        have e2 : jsGet input "query" = JsValue.vUndef := by
          simp [jsGet, hcq]
        have hout : prepareInput options input
            = [("body", JsValue.vObj lb), ("query", JsValue.vObj [])] := by
          simp [prepareInput, e1, e2, truthy, jsOr]
        rw [hout]
        exact ⟨rfl, rfl⟩
      | some vq =>
        obtain ⟨lq, rfl⟩ := hq vq hcq
        have e2 : jsGet input "query" = JsValue.vObj lq := by
          simp [jsGet, hcq]
        have hout : prepareInput options input
            = [("body", JsValue.vObj lb), ("query", JsValue.vObj lq)] := by
          simp [prepareInput, e1, e2, truthy, jsOr]
        rw [hout]
        exact ⟨rfl, rfl⟩

/-- C6 witness: the raw input of the spec example routes into the query
under the GET descriptor and into the body under the POST one; the
missing half is the empty mapping in each case. -/
theorem c6_witness :
    (jsGet (prepareInput optsGET custInput) "query" = JsValue.vObj custInput ∧
     jsGet (prepareInput optsGET custInput) "body" = JsValue.vObj []) ∧
    (jsGet (prepareInput optsPOST custInput) "body" = JsValue.vObj custInput ∧
     jsGet (prepareInput optsPOST custInput) "query" = JsValue.vObj []) := by
  have hb : ∀ v, custInput.lookup "body" = some v → ∃ l, v = JsValue.vObj l := by
    intro v h
    exact Option.noConfusion h
  have hq : ∀ v, custInput.lookup "query" = some v → ∃ l, v = JsValue.vObj l := by
    intro v h
    exact Option.noConfusion h
  exact ⟨((c6_prepare_input optsGET custInput hb hq).1 rfl rfl).1 rfl,
         ((c6_prepare_input optsPOST custInput hb hq).1 rfl rfl).2 (by decide)⟩

/-- A JavaScript-falsy `string | undefined` value: absent or empty. -/
def strFalsy (v : Option String) : Prop := v = none ∨ v = some ""

/-- C10: the prepared options used by every call force both token flags
to true (the `flag || true` computation discards an explicit false),
default the falsy fields (method to POST, accept/content types to json,
baseUrl to the ambient AUTH_URL value, path to the empty string), keep
the name and truthy fields, and carry no `prefer` field at all; the
request a call hands to `fetch` takes its method from these prepared
options. -/
theorem c10_prepare_options (authUrl : Option String) (options : OptionsT) :
    (prepareOptions authUrl options).usesAccessToken = true ∧
    (prepareOptions authUrl options).usesIdToken = true ∧
    (prepareOptions authUrl options).prefer = none ∧
    (prepareOptions authUrl options).name = options.name ∧
    (strFalsy options.method → (prepareOptions authUrl options).method = some "POST") ∧
    (∀ s, options.method = some s → s ≠ "" →
      (prepareOptions authUrl options).method = some s) ∧
    (options.acceptType = none →
      (prepareOptions authUrl options).acceptType = some DataTypeKey.json) ∧
    (∀ k, options.acceptType = some k → (prepareOptions authUrl options).acceptType = some k) ∧
    (options.contentType = none →
      (prepareOptions authUrl options).contentType = some DataTypeKey.json) ∧
    (∀ k, options.contentType = some k →
      (prepareOptions authUrl options).contentType = some k) ∧
    (strFalsy options.baseUrl → (prepareOptions authUrl options).baseUrl = authUrl) ∧
    (∀ s, options.baseUrl = some s → s ≠ "" →
      (prepareOptions authUrl options).baseUrl = some s) ∧
    (strFalsy options.path → (prepareOptions authUrl options).path = some "") ∧
    (∀ s, options.path = some s → s ≠ "" → (prepareOptions authUrl options).path = some s) ∧
    (∀ (session : SessionStorage) (input : JsObj) (response : ResponseT),
      (createServiceCall authUrl session options input response).1.method
        = (prepareOptions authUrl options).method) := by
  refine ⟨by simp [prepareOptions], by simp [prepareOptions], rfl, rfl,
         ?_, ?_, ?_, ?_, ?_, ?_, ?_, ?_, ?_, ?_, ?_⟩
  · rintro (h | h) <;> simp [prepareOptions, jsOrString, h]
  · intro s hs hne
    simp [prepareOptions, jsOrString, hs, hne]
  · intro h
    simp [prepareOptions, h]
  · intro k hk
    simp [prepareOptions, hk]
  · intro h
    simp [prepareOptions, h]
  · intro k hk
    simp [prepareOptions, hk]
  · rintro (h | h) <;> simp [prepareOptions, jsOrStringOpt, h]
  · intro s hs hne
    simp [prepareOptions, jsOrStringOpt, hs, hne]
  · rintro (h | h) <;> simp [prepareOptions, jsOrString, h]
  · intro s hs hne
    simp [prepareOptions, jsOrString, hs, hne]
  · intro session input response
    rfl

/-- C10 witness: the all-defaults descriptor prepared against a
concrete AUTH_URL shows the forced flags, the POST default, the
AUTH_URL fallback and the dropped prefer field. -/
theorem c10_witness :
    (prepareOptions (some "https://auth.example.com") { name := "svc" }).method = some "POST" ∧
    (prepareOptions (some "https://auth.example.com") { name := "svc" }).baseUrl
      = some "https://auth.example.com" ∧
    (prepareOptions (some "https://auth.example.com") { name := "svc" }).usesAccessToken = true ∧
    (prepareOptions (some "https://auth.example.com") { name := "svc" }).prefer = none := by
  obtain ⟨h1, h2, h3, h4, h5, h6, h7, h8, h9, h10, h11, h12, h13, h14, h15⟩ :=
    c10_prepare_options (some "https://auth.example.com") { name := "svc" }
  exact ⟨h5 (Or.inl rfl), h11 (Or.inl rfl), h1, h3⟩

/-- Helper: every Unicode code point is below 1114112. -/
theorem char_toNat_lt (c : Char) : c.toNat < 1114112 := by
  rcases c.valid with h | h
  · exact Nat.lt_trans h (by norm_num)
  · exact h.2

/-- Helper: UTF-8 encoding produces bytes. -/
theorem utf8Bytes_lt_256 (n : Nat) (hn : n < 1114112) : ∀ m ∈ utf8Bytes n, m < 256 := by
  intro m hm
  unfold utf8Bytes at hm
  split_ifs at hm with h1 h2 h3
  · rcases List.mem_singleton.mp hm with rfl
    omega
  · rcases List.mem_cons.mp hm with rfl | hm2
    · omega
    · rcases List.mem_singleton.mp hm2 with rfl
      omega
  · rcases List.mem_cons.mp hm with rfl | hm2
    · omega
    · rcases List.mem_cons.mp hm2 with rfl | hm3
      · omega
      · rcases List.mem_singleton.mp hm3 with rfl
        omega
  · rcases List.mem_cons.mp hm with rfl | hm2
    · omega
    · rcases List.mem_cons.mp hm2 with rfl | hm3
      · omega
      · rcases List.mem_cons.mp hm3 with rfl | hm4
        · omega
        · rcases List.mem_singleton.mp hm4 with rfl
          omega

/-- Helper: hex digits are never the question mark. -/
theorem hexDigitUpper_ne_qmark : ∀ n < 16, hexDigitUpper n ≠ Char.ofNat 63 := by decide

/-- Helper: a percent escape of a byte never contains the question
mark. -/
theorem byteHex_no_qmark (b : Nat) (hb : b < 256) : Char.ofNat 63 ∉ byteHex b := by
  intro hm
  rcases List.mem_cons.mp hm with h1 | hm2
  · exact absurd h1.symm (by decide)
  · rcases List.mem_cons.mp hm2 with h1 | hm3
    · exact absurd h1.symm (hexDigitUpper_ne_qmark (b / 16) (by omega))
    · rcases List.mem_singleton.mp hm3 with h1
      exact absurd h1.symm (hexDigitUpper_ne_qmark (b % 16) (by omega))

/-- Helper: the encoding of one character never contains the question
mark (an unreserved character is never the question mark, and escapes
use only the percent sign and hex digits). -/
theorem encPiece_no_qmark (c : Char) : Char.ofNat 63 ∉ encPiece c := by
  unfold encPiece
  split_ifs with h
  · intro hm
    rcases List.mem_singleton.mp hm with rfl
    exact absurd h (by decide)
  · intro hm
    have hb : ∀ (bs : List Nat), (∀ b ∈ bs, b < 256) →
        Char.ofNat 63 ∉ bs.foldr (fun b a => byteHex b ++ a) [] := by
      intro bs
      induction bs with
      | nil => simp
      | cons b rest ih =>
        intro hall hm2
        rcases List.mem_append.mp hm2 with h1 | h1
        · exact byteHex_no_qmark b (hall b (List.mem_cons_self b rest)) h1
        · exact ih (fun x hx => hall x (List.mem_cons_of_mem b hx)) h1
    exact hb _ (utf8Bytes_lt_256 c.toNat (char_toNat_lt c)) hm

/-- Helper: the full percent encoding never contains the question
mark. -/
theorem encodeURIComponent_no_qmark (s : String) :
    Char.ofNat 63 ∉ (encodeURIComponent s).data := by
  show Char.ofNat 63 ∉ s.data.foldr (fun c acc => encPiece c ++ acc) []
  induction s.data with
  | nil => simp
  | cons c rest ih =>
    intro hm
    rcases List.mem_append.mp hm with h1 | h1
    · exact encPiece_no_qmark c h1
    · exact ih h1

/-- Helper: first-occurrence replacement only ever outputs characters
of the target or of the replacement. -/
theorem replaceFirstList_subset (pat repl l : List Char) (c : Char) :
    c ∈ replaceFirstList pat repl l → c ∈ l ∨ c ∈ repl := by
  induction l with
  | nil => simp [replaceFirstList]
  | cons a rest ih =>
    simp only [replaceFirstList]
    split_ifs with h
    · intro hm
      rcases List.mem_append.mp hm with h1 | h1
      · exact Or.inr h1
      · exact Or.inl (List.mem_of_mem_drop h1)
    · intro hm
      rcases List.mem_cons.mp hm with rfl | h1
      · exact Or.inl (List.mem_cons_self c rest)
      · rcases ih h1 with h2 | h2
        · exact Or.inl (List.mem_cons_of_mem a h2)
        · exact Or.inr h2

/-- Helper: string concatenation concatenates the character lists. -/
theorem str_data_append (a b : String) : (a ++ b).data = a.data ++ b.data := rfl

/-- Helper: one step of the query fold introduces no question mark when
the accumulated URL, the key and the encoded value are free of it. -/
theorem handleQueryPiece_no_qmark (final : String) (kv : String × String)
    (hf : Char.ofNat 63 ∉ final.data) (hk : Char.ofNat 63 ∉ kv.1.data)
    (hv : Char.ofNat 63 ∉ kv.2.data) :
    Char.ofNat 63 ∉ (handleQueryPiece final kv).data := by
  obtain ⟨k, v⟩ := kv
  simp only [handleQueryPiece]
  split_ifs with h
  · intro hm
    rcases replaceFirstList_subset _ _ _ _ hm with h1 | h1
    · exact hf h1
    · exact hv h1
  · intro hm
    rw [str_data_append, str_data_append, str_data_append, str_data_append] at hm
    rcases List.mem_append.mp hm with hm1 | hm1
    · rcases List.mem_append.mp hm1 with hm2 | hm2
      · rcases List.mem_append.mp hm2 with hm3 | hm3
        · rcases List.mem_append.mp hm3 with hm4 | hm4
          · exact hf hm4
          · rcases List.mem_singleton.mp hm4 with h5
            exact absurd h5 (by decide)
        · exact hk hm3
      · rcases List.mem_singleton.mp hm2 with h5
        exact absurd h5 (by decide)
    · exact hv hm1

/-- Helper: folding the query steps over entries free of the question
mark keeps the URL free of it. -/
theorem foldl_handleQueryPiece_no_qmark (entries : List (String × String)) :
    ∀ acc : String, Char.ofNat 63 ∉ acc.data →
      (∀ kv ∈ entries, Char.ofNat 63 ∉ (kv : String × String).1.data ∧
        Char.ofNat 63 ∉ kv.2.data) →
      Char.ofNat 63 ∉ (entries.foldl handleQueryPiece acc).data := by
  induction entries with
  | nil =>
    intro acc h _
    exact h
  | cons kv rest ih =>
    intro acc hacc hall
    simp only [List.foldl]
    apply ih
    · exact handleQueryPiece_no_qmark acc kv hacc
        (hall kv (List.mem_cons_self kv rest)).1 (hall kv (List.mem_cons_self kv rest)).2
    · intro kv2 h2
      exact hall kv2 (List.mem_cons_of_mem kv h2)

/-- C4: the URL builder starts from baseUrl concatenated with path and
folds the query entries in iteration order; the spec example
substitutes the placeholder for `id` and appends `foo` with its
percent-encoded value (first conjunct); on a single-entry query, the
builder substitutes the placeholder of the key with the encoded value
when the seed contains it and otherwise appends `&key=value` with the
raw key and encoded value (second conjunct); and the builder itself
never emits a question mark: whenever the seed and the keys are free of
it, so is the output, every encoded value being free of it by
construction (third conjunct). -/
theorem c4_url_builder :
    (createUrl { baseUrl := some "https://example.com", path := some "/api/x/\x7bid\x7d" }
        [("query", JsValue.vObj [("id", JsValue.vNum 5), ("foo", JsValue.vStr "a b")])]
      = "https://example.com/api/x/5&foo=a%20b") ∧
    (∀ (b p k : String) (w : JsValue),
      createUrl { baseUrl := some b, path := some p } [("query", JsValue.vObj [(k, w)])]
        = (if strContainsSub (b ++ p) ("\x7b" ++ k ++ "\x7d")
           then injectVariable (b ++ p) k (encodeURIComponent (jsString w))
           else b ++ p ++ "&" ++ k ++ "=" ++ encodeURIComponent (jsString w))) ∧
    (∀ (opts : CreateUrlOptionsT) (entries : List (String × JsValue)),
      Char.ofNat 63 ∉ (undefString opts.baseUrl ++ undefString opts.path).data →
      (∀ kv ∈ entries, Char.ofNat 63 ∉ (kv : String × JsValue).1.data) →
      Char.ofNat 63 ∉ (createUrl opts [("query", JsValue.vObj entries)]).data) := by
  refine ⟨by decide, ?_, ?_⟩
  · intro b p k w
    rfl
  · intro opts entries hseed hkeys
    have hrw : createUrl opts [("query", JsValue.vObj entries)]
        = (encodeQuery entries).foldl handleQueryPiece
            (undefString opts.baseUrl ++ undefString opts.path) := rfl
    rw [hrw]
    apply foldl_handleQueryPiece_no_qmark
    · exact hseed
    · intro kv hkv
      rcases List.mem_map.mp hkv with ⟨kv0, hkv0, rfl⟩
      exact ⟨hkeys kv0 hkv0, encodeURIComponent_no_qmark _⟩

/-- C4 witness: the spec example's inputs satisfy the hypotheses of the
third conjunct, and its output indeed contains no question mark. -/
theorem c4_witness :
    Char.ofNat 63 ∉ (createUrl
      { baseUrl := some "https://example.com", path := some "/api/x/\x7bid\x7d" }
      [("query", JsValue.vObj [("id", JsValue.vNum 5), ("foo", JsValue.vStr "a b")])]).data :=
  c4_url_builder.2.2
    { baseUrl := some "https://example.com", path := some "/api/x/\x7bid\x7d" }
    [("id", JsValue.vNum 5), ("foo", JsValue.vStr "a b")]
    (by decide) (by decide)
